import Mathlib

/-!
Verification of the CTMP broadcast relay (coretech-wirestorm).

Shallow embedding of the frame codec, broadcaster, source session and
admission gate from src/src/lib.rs and src/src/main.rs.  Bytes are
modelled as Nat (well-formed bytes are < 256); u16 words as Nat with
explicit mod 65536 where the code truncates; the u32 accumulator as
Nat with explicit mod 2^32 (main.rs uses wrapping_add; lib.rs release
arithmetic wraps identically, and intermediate wrapping additions equal
a single final reduction mod 2^32).
-/

namespace Wirestorm

/-- lib.rs `CTMP_HEADER_LEN`. -/
def CTMP_HEADER_LEN : Nat := 8

/-- lib.rs `CTMP_PAD`. -/
def CTMP_PAD : Nat := 0x00

/-- lib.rs `CTMP_MAX_PAYLOAD_SIZE` (the constant is 65536). -/
def CTMP_MAX_PAYLOAD_SIZE : Nat := 65536

/-- lib.rs `CTMP_MAGIC_BYTE`. -/
def CTMP_MAGIC_BYTE : Nat := 0xCC

/-- `u16::from_be_bytes([hi, lo])`: big-endian 16-bit word from two bytes. -/
def be16 (hi lo : Nat) : Nat := 256 * hi + lo

/-- `chunks(2)` of a byte list turned into big-endian 16-bit words; an odd
final byte is treated as `u16::from_be_bytes([b, 0])`, i.e. padded with a
trailing zero (lib.rs lines 291-297 / 301-307, main.rs lines 144-149). -/
def words16 : List Nat → List Nat
  | [] => []
  | [b] => [be16 b 0]
  | a :: b :: rest => be16 a b :: words16 rest

/-- Sum of the 16-bit words of a byte list. -/
def wordSum (l : List Nat) : Nat := (words16 l).sum

/-- lib.rs lines 284-286 / main.rs lines 139-141: replace header bytes 4
and 5 with the 0xCC placeholder before summing. -/
def setChecksumPlaceholder (header : List Nat) : List Nat :=
  (header.set 4 CTMP_MAGIC_BYTE).set 5 CTMP_MAGIC_BYTE

/-- lib.rs `verify_checksum` (lines 281-315): sum header (with 0xCC
placeholder at bytes 4-5) and payload as big-endian u16 words into a u32
accumulator, fold the carry ONCE with
`sum = (sum & 0xFFFF) + (sum >> 16)`, then return `!(sum as u16)`.
The single fold result can still exceed 16 bits; `as u16` truncates it. -/
def verify_checksum (header payload : List Nat) : Nat :=
  65535 -
    ((((wordSum (setChecksumPlaceholder header) + wordSum payload) % 4294967296) % 65536
      + ((wordSum (setChecksumPlaceholder header) + wordSum payload) % 4294967296) / 65536)
      % 65536)

/-- Fuel-indexed carry folding; models `while (sum >> 16) != 0
{ sum = (sum & 0xFFFF) + (sum >> 16) }` (main.rs lines 153-155).  Each
iteration strictly decreases `sum` when it is at least 65536, so fuel
equal to the initial value always suffices (see `foldCarriesF_div`). -/
def foldCarriesF : Nat → Nat → Nat
  | 0, s => s
  | fuel + 1, s => if s / 65536 = 0 then s else foldCarriesF fuel (s % 65536 + s / 65536)

/-- The while-loop carry fold of main.rs lines 153-155. -/
def foldCarries (s : Nat) : Nat := foldCarriesF s s

/-- main.rs inline checksum in `handle_source_connection` (lines 138-157):
identical word sum with 0xCC placeholder, but the carry fold is the full
while loop, then `!(sum as u16)`. -/
def handle_source_connection_checksum (header payload : List Nat) : Nat :=
  65535 -
    (foldCarries ((wordSum (setChecksumPlaceholder header) + wordSum payload) % 4294967296)
      % 65536)

/-- The checksum algorithm as the spec words it (spec section 4.1,
`compute_checksum`): 32-bit accumulator, carries folded repeatedly while
the upper 16 bits are non-zero, complement of the low 16 bits.  Stated
for comparison with lib.rs `verify_checksum` (refinement claims C1/C10);
it coincides with the main.rs inline checksum. -/
def compute_checksum_spec (header payload : List Nat) : Nat :=
  65535 -
    (foldCarries ((wordSum (setChecksumPlaceholder header) + wordSum payload) % 4294967296)
      % 65536)

/-- lib.rs `validate_header` (lines 223-250), checks in source order:
magic byte, bytes 6-7 padding, bytes 4-5 zero for non-sensitive headers,
then the length bounds.  `sensitive` is bit 6 (0x40) of byte 1. -/
def validate_header (h : List Nat) : Except String (Nat × Bool) :=
  if h.getD 0 0 ≠ CTMP_MAGIC_BYTE then .error ("Invalid magic byte")
  else if ¬ (h.getD 6 0 = CTMP_PAD ∧ h.getD 7 0 = CTMP_PAD) then .error ("Invalid padding")
  else if ¬ Nat.testBit (h.getD 1 0) 6 ∧ ¬ (h.getD 4 0 = 0 ∧ h.getD 5 0 = 0) then
    .error ("Invalid Padding for non sensitive headers")
  else if be16 (h.getD 2 0) (h.getD 3 0) = 0
      ∨ be16 (h.getD 2 0) (h.getD 3 0) > CTMP_MAX_PAYLOAD_SIZE then
    .error ("Invalid payload length: " ++ toString (be16 (h.getD 2 0) (h.getD 3 0)))
  else .ok (be16 (h.getD 2 0) (h.getD 3 0), Nat.testBit (h.getD 1 0) 6)

/-- `read_exact` on a byte stream: `n` bytes are consumed and returned, or
the read fails (EOF / short read) and the session sees an error. -/
def readExact (n : Nat) (input : List Nat) : Option (List Nat × List Nat) :=
  if n ≤ input.length then some (input.take n, input.drop n) else none

/-- Outcome of one iteration of a source-session loop. -/
inductive FrameStep where
  | terminated : FrameStep
  | dropped : List Nat → FrameStep
  | broadcasted : List Nat → List Nat → FrameStep
deriving DecidableEq

/-- One iteration of lib.rs `handle_transmitter` (lines 335-370): read an
8-byte header (failure breaks), `validate_header` (error breaks), read
`length` payload bytes (failure breaks); for a sensitive frame whose
stored checksum (bytes 4-5, big-endian) differs from `verify_checksum`
the frame is dropped and the loop continues; otherwise the frame
`header ++ payload` is broadcast. -/
def sessionStep (input : List Nat) : FrameStep :=
  match readExact CTMP_HEADER_LEN input with
  | none => .terminated
  | some (header, rest1) =>
    match validate_header header with
    | .error _ => .terminated
    | .ok (length, sensitive) =>
      match readExact length rest1 with
      | none => .terminated
      | some (payload, rest2) =>
        if sensitive ∧ verify_checksum header payload ≠ be16 (header.getD 4 0) (header.getD 5 0)
        then .dropped rest2
        else .broadcasted (header ++ payload) rest2

/-- One iteration of main.rs `handle_source_connection` (lines 97-188):
inline validation checks only magic, bytes 6-7 padding and length (there
is NO check that bytes 4-5 are zero for non-sensitive frames), and the
sensitive checksum uses the while-loop carry fold. -/
def handle_source_connection_step (input : List Nat) : FrameStep :=
  match readExact CTMP_HEADER_LEN input with
  | none => .terminated
  | some (header, rest1) =>
    if header.getD 0 0 ≠ CTMP_MAGIC_BYTE then .terminated
    else if ¬ (header.getD 6 0 = CTMP_PAD ∧ header.getD 7 0 = CTMP_PAD) then .terminated
    else if be16 (header.getD 2 0) (header.getD 3 0) = 0
        ∨ be16 (header.getD 2 0) (header.getD 3 0) > CTMP_MAX_PAYLOAD_SIZE then .terminated
    else
      match readExact (be16 (header.getD 2 0) (header.getD 3 0)) rest1 with
      | none => .terminated
      | some (payload, rest2) =>
        if Nat.testBit (header.getD 1 0) 6 ∧
            handle_source_connection_checksum header payload
              ≠ be16 (header.getD 4 0) (header.getD 5 0)
        then .dropped rest2
        else .broadcasted (header ++ payload) rest2

/-- Result of a whole source-session run: the frames handed to
`broadcast_message` in order, and whether the admission slot was cleared
(`*active = None`) before the function returned.  `panicked` models an
unwind out of the session (a poisoned destinations mutex makes the
`unwrap_or_else` in the broadcast call panic); the code has no scope
guard, so an unwinding exit never reaches the clear. -/
inductive SessionResult where
  | finished : List (List Nat) → Bool → SessionResult
  | panicked : List (List Nat) → Bool → SessionResult
deriving DecidableEq

/-- Fuel-indexed session loop (fuel larger than the input length is
always enough: every non-terminal iteration consumes at least 9 bytes).
`destPoisoned` models whether the destinations mutex is poisoned: a
broadcast attempt then panics and the session unwinds with the admission
slot still occupied. -/
def sessionLoopF (destPoisoned : Bool) : Nat → List Nat → SessionResult
  | 0, _ => .finished [] true
  | fuel + 1, input =>
    match sessionStep input with
    | .terminated => .finished [] true
    | .dropped rest => sessionLoopF destPoisoned fuel rest
    | .broadcasted frame rest =>
      if destPoisoned then .panicked [] false
      else
        match sessionLoopF destPoisoned fuel rest with
        | .finished bs c => .finished (frame :: bs) c
        | .panicked bs c => .panicked (frame :: bs) c

/-- lib.rs `handle_transmitter` (lines 327-378): run the session loop on
the whole input stream, then clear the admission slot (the clear is the
straight-line code after the loop, so it runs exactly once on every
normal exit and never on an unwinding exit). -/
def handle_transmitter_run (destPoisoned : Bool) (input : List Nat) : SessionResult :=
  sessionLoopF destPoisoned (input.length + 1) input

/-- A destination sink: whether a `write_all` of the next frame to it
succeeds, and the log of frames it has fully received. -/
structure Sink where
  ok : Bool
  received : List (List Nat)

/-- `dest.write_all(&frame).is_ok()` for one sink: on success the sink
has received the frame and is kept, on failure it is dropped. -/
def writeAll (frame : List Nat) (s : Sink) : Option Sink :=
  if s.ok then some { s with received := s.received ++ [frame] } else none

/-- lib.rs `broadcast_message` (lines 260-269): build
`frame = header ++ payload`, then
`dests.retain_mut(|dest| dest.write_all(&frame).is_ok())`. -/
def broadcast_message (header payload : List Nat) (dests : List Sink) : List Sink :=
  dests.filterMap (writeAll (header ++ payload))

/-- Admission-gate state of main.rs: whether `active_source` holds
`Some(stream)`, and how many source sessions are live. -/
structure RelayGate where
  activeSourceOccupied : Bool
  liveSessions : Nat
deriving DecidableEq

/-- Events on the admission gate. -/
inductive GateEvent where
  | sourceConnect : GateEvent
  | sessionExit : GateEvent
deriving DecidableEq

/-- The two critical sections that touch `active_source`, each atomic
because both run under the same `active_source.lock()`:
main.rs lines 56-74 (acceptor: if the slot is occupied the new
connection is dropped without being read and the accept loop continues;
otherwise the slot is filled and a session is started) and main.rs lines
190-194 / lib.rs lines 372-376 (session exit: `*active = None`). -/
def gateStep (s : RelayGate) : GateEvent → RelayGate
  | .sourceConnect =>
    if s.activeSourceOccupied then s
    else { activeSourceOccupied := true, liveSessions := s.liveSessions + 1 }
  | .sessionExit => { activeSourceOccupied := false, liveSessions := s.liveSessions - 1 }

/-- Run of the admission gate from the initial state of `main`
(`active_source = None`, no session). -/
def gateRun (events : List GateEvent) : RelayGate :=
  events.foldl gateStep { activeSourceOccupied := false, liveSessions := 0 }

/-- Weight of the byte at index `j` in the big-endian word sum: 256 for
the high byte of a word (even index), 1 for the low byte (odd index). -/
def wgt (j : Nat) : Nat := if j % 2 = 0 then 256 else 1

/-! ## Helper lemmas -/

/-- The while-loop carry fold terminates with the upper 16 bits zero:
fuel at least the starting value always suffices, because each iteration
strictly decreases the accumulator. -/
theorem foldCarriesF_div : ∀ (fuel s : Nat), s ≤ fuel → foldCarriesF fuel s / 65536 = 0
  | 0, s, h => by
      have hs : s = 0 := Nat.le_zero.mp h
      subst hs
      simp [foldCarriesF]
  | fuel + 1, s, h => by
      rw [foldCarriesF]
      by_cases h0 : s / 65536 = 0
      · simp [h0]
      · have hnext : s % 65536 + s / 65536 ≤ fuel := by omega
        simpa [h0] using foldCarriesF_div fuel _ hnext

/-- Changing one byte of a list changes the big-endian word sum by the
byte delta times its positional weight. -/
theorem wordSum_set : ∀ (l : List Nat) (j v : Nat), j < l.length →
    wordSum (l.set j v) + wgt j * l.getD j 0 = wordSum l + wgt j * v
  | [], j, v, h => by simp at h
  | [a], 0, v, _ => by simp [wordSum, words16, wgt, be16]; ring
  | [a], j + 1, v, h => by simp at h
  | a :: b :: rest, 0, v, _ => by simp [wordSum, words16, wgt, be16]; ring
  | a :: b :: rest, 1, v, _ => by simp [wordSum, words16, wgt, be16]; ring
  | a :: b :: rest, j + 2, v, h => by
      have hlen : j < rest.length := by
        simp at h
        omega
      have ih := wordSum_set rest j v hlen
      have hw : wgt (j + 2) = wgt j := by simp [wgt, Nat.add_mod_right]
      simp only [List.set_cons_succ, List.getD_cons_succ, wordSum, words16, List.sum_cons, hw]
        at ih ⊢
      have : (words16 (rest.set j v)).sum + wgt j * rest.getD j 0
          = (words16 rest).sum + wgt j * v := ih
      linarith

set_option maxRecDepth 40000 in
/-- Flipping a single bit of a byte changes it, and changes it by exactly
a power of two (up or down). -/
theorem xor_flip_byte : ∀ x, x < 256 → ∀ t, t < 8 →
    x ^^^ 2 ^ t ≠ x ∧ (x ^^^ 2 ^ t = x + 2 ^ t ∨ x = (x ^^^ 2 ^ t) + 2 ^ t) := by decide

/-- The checksum of lib.rs `verify_checksum` distinguishes word sums that
differ by a power of two below 2^16: a single fold followed by 16-bit
truncation changes the folded sum by the delta or the delta plus a carry
of one, never by a multiple of 2^16. -/
theorem checksum_ne_of_delta (A B d : Nat) (hd : ∃ k, k < 16 ∧ d = 2 ^ k)
    (h : B = A + d ∨ A = B + d) :
    65535 - (((B % 4294967296) % 65536 + (B % 4294967296) / 65536) % 65536)
      ≠ 65535 - (((A % 4294967296) % 65536 + (A % 4294967296) / 65536) % 65536) := by
  obtain ⟨k, hk, rfl⟩ := hd
  interval_cases k <;> rcases h with rfl | rfl <;> omega

/-- One step of the admission gate preserves the exclusivity invariant. -/
theorem gateStep_inv (s : RelayGate) (e : GateEvent)
    (h1 : s.liveSessions ≤ 1)
    (h2 : s.activeSourceOccupied = true ↔ s.liveSessions = 1) :
    (gateStep s e).liveSessions ≤ 1
    ∧ ((gateStep s e).activeSourceOccupied = true ↔ (gateStep s e).liveSessions = 1) := by
  cases e
  · by_cases hb : s.activeSourceOccupied = true <;> simp [gateStep, hb] at h2 ⊢ <;> omega
  · simp [gateStep]
    omega

/-- The exclusivity invariant holds along every event sequence. -/
theorem gateFold_inv : ∀ (events : List GateEvent) (s : RelayGate),
    s.liveSessions ≤ 1 → (s.activeSourceOccupied = true ↔ s.liveSessions = 1) →
    (List.foldl gateStep s events).liveSessions ≤ 1
    ∧ ((List.foldl gateStep s events).activeSourceOccupied = true
        ↔ (List.foldl gateStep s events).liveSessions = 1)
  | [], s, h1, h2 => by simpa using ⟨h1, h2⟩
  | e :: rest, s, h1, h2 => by
      have h := gateStep_inv s e h1 h2
      simpa [List.foldl_cons] using gateFold_inv rest (gateStep s e) h.1 h.2

/-- Inversion of a successful `readExact`. -/
theorem readExact_some {n : Nat} {input taken rest : List Nat}
    (h : readExact n input = some (taken, rest)) :
    n ≤ input.length ∧ taken = input.take n ∧ rest = input.drop n := by
  unfold readExact at h
  split at h
  · simp only [Option.some.injEq, Prod.mk.injEq] at h
    exact ⟨by assumption, h.1.symm, h.2.symm⟩
  · simp at h

/-- A successful `validate_header` yields a length between 1 and 65536. -/
theorem validate_header_ok_bounds {h : List Nat} {len : Nat} {s : Bool}
    (hok : validate_header h = .ok (len, s)) :
    1 ≤ len ∧ len ≤ 65536 ∧ len = be16 (h.getD 2 0) (h.getD 3 0) := by
  unfold validate_header at hok
  split at hok
  · simp at hok
  · split at hok
    · simp at hok
    · split at hok
      · simp at hok
      · split at hok
        · simp at hok
        · rename_i hcond
          simp only [Except.ok.injEq, Prod.mk.injEq] at hok
          have hlen := hok.1
          simp only [CTMP_MAX_PAYLOAD_SIZE] at hcond
          omega

/-- `sessionStep` when the header read fails. -/
theorem sessionStep_eq_noHeader {input : List Nat}
    (h : readExact CTMP_HEADER_LEN input = none) : sessionStep input = .terminated := by
  unfold sessionStep
  rw [h]

/-- `sessionStep` when the header reads but validation fails. -/
theorem sessionStep_eq_invalid {input header rest1 : List Nat} {e : String}
    (h1 : readExact CTMP_HEADER_LEN input = some (header, rest1))
    (h2 : validate_header header = .error e) : sessionStep input = .terminated := by
  unfold sessionStep
  rw [h1]
  show (match validate_header header with
    | .error _ => FrameStep.terminated
    | .ok (length, sensitive) =>
      match readExact length rest1 with
      | none => FrameStep.terminated
      | some (payload, rest2) =>
        if sensitive ∧ verify_checksum header payload ≠ be16 (header.getD 4 0) (header.getD 5 0)
        then FrameStep.dropped rest2
        else FrameStep.broadcasted (header ++ payload) rest2) = FrameStep.terminated
  rw [h2]

/-- `sessionStep` when the payload read fails. -/
theorem sessionStep_eq_shortPayload {input header rest1 : List Nat} {len : Nat} {sens : Bool}
    (h1 : readExact CTMP_HEADER_LEN input = some (header, rest1))
    (h2 : validate_header header = .ok (len, sens))
    (h3 : readExact len rest1 = none) : sessionStep input = .terminated := by
  unfold sessionStep
  rw [h1]
  show (match validate_header header with
    | .error _ => FrameStep.terminated
    | .ok (length, sensitive) =>
      match readExact length rest1 with
      | none => FrameStep.terminated
      | some (payload, rest2) =>
        if sensitive ∧ verify_checksum header payload ≠ be16 (header.getD 4 0) (header.getD 5 0)
        then FrameStep.dropped rest2
        else FrameStep.broadcasted (header ++ payload) rest2) = FrameStep.terminated
  rw [h2]
  show (match readExact len rest1 with
    | none => FrameStep.terminated
    | some (payload, rest2) =>
      if sens ∧ verify_checksum header payload ≠ be16 (header.getD 4 0) (header.getD 5 0)
      then FrameStep.dropped rest2
      else FrameStep.broadcasted (header ++ payload) rest2) = FrameStep.terminated
  rw [h3]

/-- `sessionStep` when a whole frame is read. -/
theorem sessionStep_eq_frame {input header rest1 payload rest2 : List Nat} {len : Nat}
    {sens : Bool}
    (h1 : readExact CTMP_HEADER_LEN input = some (header, rest1))
    (h2 : validate_header header = .ok (len, sens))
    (h3 : readExact len rest1 = some (payload, rest2)) :
    sessionStep input =
      if sens ∧ verify_checksum header payload ≠ be16 (header.getD 4 0) (header.getD 5 0)
      then .dropped rest2
      else .broadcasted (header ++ payload) rest2 := by
  unfold sessionStep
  rw [h1]
  show (match validate_header header with
    | .error _ => FrameStep.terminated
    | .ok (length, sensitive) =>
      match readExact length rest1 with
      | none => FrameStep.terminated
      | some (payload, rest2) =>
        if sensitive ∧ verify_checksum header payload ≠ be16 (header.getD 4 0) (header.getD 5 0)
        then FrameStep.dropped rest2
        else FrameStep.broadcasted (header ++ payload) rest2) = _
  rw [h2]
  show (match readExact len rest1 with
    | none => FrameStep.terminated
    | some (payload, rest2) =>
      if sens ∧ verify_checksum header payload ≠ be16 (header.getD 4 0) (header.getD 5 0)
      then FrameStep.dropped rest2
      else FrameStep.broadcasted (header ++ payload) rest2) = _
  rw [h3]

/-- A non-terminal session step consumes at least one whole frame, so the
remaining stream is strictly shorter. -/
theorem sessionStep_shrinks (input rest : List Nat)
    (h : sessionStep input = .dropped rest ∨ ∃ f, sessionStep input = .broadcasted f rest) :
    rest.length < input.length := by
  rcases hread : readExact CTMP_HEADER_LEN input with _ | ⟨header, rest1⟩
  · rw [sessionStep_eq_noHeader hread] at h
    rcases h with h | ⟨f, h⟩ <;> simp at h
  · rcases hval : validate_header header with e | ⟨len, sens⟩
    · rw [sessionStep_eq_invalid hread hval] at h
      rcases h with h | ⟨f, h⟩ <;> simp at h
    · rcases hread2 : readExact len rest1 with _ | ⟨payload, rest2⟩
      · rw [sessionStep_eq_shortPayload hread hval hread2] at h
        rcases h with h | ⟨f, h⟩ <;> simp at h
      · rw [sessionStep_eq_frame hread hval hread2] at h
        have e1 := readExact_some hread
        have e2 := readExact_some hread2
        have hb := validate_header_ok_bounds hval
        have hr2 : rest = rest2 := by
          rcases h with h | ⟨f, h⟩ <;> split at h <;> simp_all
        have hlen1 : rest1.length = input.length - CTMP_HEADER_LEN := by
          rw [e1.2.2]
          simp
        have hlen2 : rest2.length = rest1.length - len := by
          rw [e2.2.2]
          simp
        have h8 : CTMP_HEADER_LEN = 8 := rfl
        rw [hr2]
        omega

/-- The fuel parameter of the session loop is irrelevant once it exceeds
the input length. -/
theorem sessionLoopF_congr (p : Bool) : ∀ (n f1 f2 : Nat) (input : List Nat),
    input.length ≤ n → input.length < f1 → input.length < f2 →
    sessionLoopF p f1 input = sessionLoopF p f2 input := by
  intro n
  induction n with
  | zero =>
      intro f1 f2 input hn h1 h2
      have hnil : input = [] := List.eq_nil_of_length_eq_zero (Nat.le_zero.mp hn)
      subst hnil
      obtain ⟨g1, rfl⟩ : ∃ g, f1 = g + 1 := ⟨f1 - 1, by omega⟩
      obtain ⟨g2, rfl⟩ : ∃ g, f2 = g + 1 := ⟨f2 - 1, by omega⟩
      rfl
  | succ n ih =>
      intro f1 f2 input hn h1 h2
      obtain ⟨g1, rfl⟩ : ∃ g, f1 = g + 1 := ⟨f1 - 1, by omega⟩
      obtain ⟨g2, rfl⟩ : ∃ g, f2 = g + 1 := ⟨f2 - 1, by omega⟩
      rw [sessionLoopF, sessionLoopF]
      cases hstep : sessionStep input with
      | terminated => rfl
      | dropped rest =>
          have hr : rest.length < input.length :=
            sessionStep_shrinks input rest (Or.inl hstep)
          exact ih g1 g2 rest (by omega) (by omega) (by omega)
      | broadcasted f rest =>
          have hr : rest.length < input.length :=
            sessionStep_shrinks input rest (Or.inr ⟨f, hstep⟩)
          show (if p = true then SessionResult.panicked [] false
              else match sessionLoopF p g1 rest with
                | .finished bs c => SessionResult.finished (f :: bs) c
                | .panicked bs c => SessionResult.panicked (f :: bs) c)
            = (if p = true then SessionResult.panicked [] false
              else match sessionLoopF p g2 rest with
                | .finished bs c => SessionResult.finished (f :: bs) c
                | .panicked bs c => SessionResult.panicked (f :: bs) c)
          rw [ih g1 g2 rest (by omega) (by omega) (by omega)]

/-! ## Claim theorems -/

/-- Claim C1: `verify_checksum` is claimed to fold carries repeatedly
while the upper 16 bits of the accumulator are non-zero.  The code folds
only once and truncates.  At header `[0,0,0,0,0,0,0,0]` and payload
`[0xFF,0xFF,0x33,0x34]` the word sum is 0x1FFFF; the single fold gives
0x10000, truncated to 0x0000, so the code returns 0xFFFF, while the
claimed repeated fold gives 0x0001 and result 0xFFFE. -/
theorem c1_verify_checksum_folds_once :
    verify_checksum [0, 0, 0, 0, 0, 0, 0, 0] [0xFF, 0xFF, 0x33, 0x34] = 0xFFFF
    ∧ compute_checksum_spec [0, 0, 0, 0, 0, 0, 0, 0] [0xFF, 0xFF, 0x33, 0x34] = 0xFFFE := by
  exact ⟨rfl, rfl⟩

/-- Claim C2: a frame with valid magic, sensitive bit clear and non-zero
checksum bytes is rejected with the padding error by the library
validator and the library session terminates, but the main binary's
session (whose inline validation has no such check) broadcasts exactly
that frame and continues. -/
theorem c2_nonsensitive_nonzero_checksum :
    validate_header [0xCC, 0x00, 0x00, 0x01, 0xAB, 0xCD, 0x00, 0x00]
        = .error ("Invalid Padding for non sensitive headers")
    ∧ sessionStep ([0xCC, 0x00, 0x00, 0x01, 0xAB, 0xCD, 0x00, 0x00] ++ [0x41]) = .terminated
    ∧ handle_source_connection_step ([0xCC, 0x00, 0x00, 0x01, 0xAB, 0xCD, 0x00, 0x00] ++ [0x41])
        = .broadcasted ([0xCC, 0x00, 0x00, 0x01, 0xAB, 0xCD, 0x00, 0x00] ++ [0x41]) [] := by
  exact ⟨rfl, rfl, rfl⟩

/-- Claim C4: after `broadcast_message`, the roster is exactly the sinks
whose `write_all` of the full frame `header ++ payload` succeeded, each
with exactly that byte sequence appended to what it has received; a sink
whose write fails is absent from the roster immediately after the call. -/
theorem c4_broadcast_retains_iff_write_ok (header payload : List Nat) (dests : List Sink) :
    broadcast_message header payload dests
      = (dests.filter fun s => s.ok).map
          fun s => { s with received := s.received ++ [header ++ payload] } := by
  induction dests with
  | nil => rfl
  | cons s rest ih =>
      simp only [broadcast_message, List.filterMap_cons, List.filter_cons] at ih ⊢
      by_cases h : s.ok = true
      · simp [writeAll, h, ih]
      · simp [writeAll, h, ih]

/-- Claim C5: with the check-and-set of the acceptor and the clear of the
session each an atomic critical section under the `active_source` mutex,
at most one source session is live at any instant, the slot is occupied
exactly while a session is live, and a connection arriving while the
slot is occupied leaves the gate unchanged (the new socket is dropped
without a session ever being spawned or a byte being read from it). -/
theorem c5_admission_exclusivity (events : List GateEvent) (st : RelayGate)
    (hocc : st.activeSourceOccupied = true) :
    (gateRun events).liveSessions ≤ 1
    ∧ ((gateRun events).activeSourceOccupied = true ↔ (gateRun events).liveSessions = 1)
    ∧ gateStep st .sourceConnect = st := by
  have h := gateFold_inv events
    { activeSourceOccupied := false, liveSessions := 0 } (by simp) (by simp)
  exact ⟨h.1, h.2, by simp [gateStep, hocc]⟩

/-- Witness for C5 at a concrete event trace and state. -/
theorem c5_admission_exclusivity_witness :
    ({ activeSourceOccupied := true, liveSessions := 1 } : RelayGate).activeSourceOccupied = true
    ∧ ((gateRun [.sourceConnect, .sourceConnect, .sessionExit]).liveSessions ≤ 1
      ∧ ((gateRun [.sourceConnect, .sourceConnect, .sessionExit]).activeSourceOccupied = true
          ↔ (gateRun [.sourceConnect, .sourceConnect, .sessionExit]).liveSessions = 1)
      ∧ gateStep { activeSourceOccupied := true, liveSessions := 1 } .sourceConnect
          = { activeSourceOccupied := true, liveSessions := 1 }) :=
  ⟨rfl, c5_admission_exclusivity [.sourceConnect, .sourceConnect, .sessionExit]
    { activeSourceOccupied := true, liveSessions := 1 } rfl⟩

/-- Claim C6: the admission slot is claimed to be cleared exactly once on
every exit path including panics.  On the normal exit of a one-frame
stream the slot is cleared once, but when the destinations mutex is
poisoned the broadcast call panics and the session unwinds without
clearing the slot (there is no scope guard in the code). -/
theorem c6_panic_path_skips_slot_clear :
    handle_transmitter_run true [0xCC, 0, 0, 1, 0, 0, 0, 0, 0x41] = .panicked [] false
    ∧ handle_transmitter_run false [0xCC, 0, 0, 1, 0, 0, 0, 0, 0x41]
        = .finished [[0xCC, 0, 0, 1, 0, 0, 0, 0, 0x41]] true := by
  exact ⟨rfl, rfl⟩

/-- Counterexample to claim C9: a header with valid magic, sensitive bit
clear and reserved options bit 0 set (options byte 0x01) is accepted by
`validate_header`, not rejected. -/
theorem c9_reserved_bits_accepted :
    validate_header [0xCC, 0x01, 0x00, 0x01, 0x00, 0x00, 0x00, 0x00] = .ok (1, false) := rfl

/-- Claim C9 amended: `validate_header` never inspects the reserved bits
of the options byte; its result depends on byte 1 only through bit 6, so
a non-sensitive header with reserved bits set is treated exactly like
the same header with options byte zeroed. -/
theorem c9_reserved_bits_ignored (b0 b1 b1' b2 b3 b4 b5 b6 b7 : Nat)
    (h : Nat.testBit b1 6 = Nat.testBit b1' 6) :
    validate_header [b0, b1, b2, b3, b4, b5, b6, b7]
      = validate_header [b0, b1', b2, b3, b4, b5, b6, b7] := by
  simp only [validate_header, List.getD_cons_zero, List.getD_cons_succ, h]

/-- Witness for the amended C9 at options bytes 0x01 and 0x00. -/
theorem c9_reserved_bits_ignored_witness :
    Nat.testBit 1 6 = Nat.testBit 0 6
    ∧ validate_header [0xCC, 1, 0, 1, 0, 0, 0, 0] = validate_header [0xCC, 0, 0, 1, 0, 0, 0, 0] :=
  ⟨rfl, c9_reserved_bits_ignored 0xCC 1 0 0 1 0 0 0 0 rfl⟩

/-- Claim C8: for a header that passes the magic, padding and
non-sensitive-checksum checks, `validate_header` reports the invalid
payload length error exactly when the decoded big-endian length of bytes
2-3 is zero or exceeds 65536, and otherwise succeeds returning exactly
that decoded length (with the sensitive flag). -/
theorem c8_length_validation (b0 b1 b2 b3 b4 b5 b6 b7 : Nat)
    (hmagic : b0 = 0xCC) (h6 : b6 = 0) (h7 : b7 = 0)
    (hcs : Nat.testBit b1 6 = true ∨ (b4 = 0 ∧ b5 = 0)) :
    (validate_header [b0, b1, b2, b3, b4, b5, b6, b7]
        = .error ("Invalid payload length: " ++ toString (be16 b2 b3))
      ↔ (be16 b2 b3 = 0 ∨ be16 b2 b3 > 65536))
    ∧ (validate_header [b0, b1, b2, b3, b4, b5, b6, b7]
        = .ok (be16 b2 b3, Nat.testBit b1 6)
      ↔ ¬ (be16 b2 b3 = 0 ∨ be16 b2 b3 > 65536)) := by
  subst hmagic
  subst h6
  subst h7
  have hstep : validate_header [0xCC, b1, b2, b3, b4, b5, 0, 0]
      = if be16 b2 b3 = 0 ∨ be16 b2 b3 > 65536
        then .error ("Invalid payload length: " ++ toString (be16 b2 b3))
        else .ok (be16 b2 b3, Nat.testBit b1 6) := by
    rcases hcs with hs | ⟨hz4, hz5⟩
    · simp [validate_header, CTMP_MAGIC_BYTE, CTMP_PAD, CTMP_MAX_PAYLOAD_SIZE, hs]
    · simp [validate_header, CTMP_MAGIC_BYTE, CTMP_PAD, CTMP_MAX_PAYLOAD_SIZE, hz4, hz5]
  rw [hstep]
  by_cases hlen : be16 b2 b3 = 0 ∨ be16 b2 b3 > 65536
  · simp [hlen]
  · simp [hlen]

/-- Witness for C8 at the header `CC 00 01 00 00 00 00 00` (length 256). -/
theorem c8_length_validation_witness :
    (0xCC : Nat) = 0xCC ∧ (0 : Nat) = 0 ∧ (0 : Nat) = 0
    ∧ (Nat.testBit 0 6 = true ∨ ((0 : Nat) = 0 ∧ (0 : Nat) = 0))
    ∧ ((validate_header [0xCC, 0, 1, 0, 0, 0, 0, 0]
          = .error ("Invalid payload length: " ++ toString (be16 1 0))
        ↔ (be16 1 0 = 0 ∨ be16 1 0 > 65536))
      ∧ (validate_header [0xCC, 0, 1, 0, 0, 0, 0, 0]
          = .ok (be16 1 0, Nat.testBit 0 6)
        ↔ ¬ (be16 1 0 = 0 ∨ be16 1 0 > 65536))) :=
  ⟨rfl, rfl, rfl, Or.inr ⟨rfl, rfl⟩,
    c8_length_validation 0xCC 0 1 0 0 0 0 0 rfl rfl rfl (Or.inr ⟨rfl, rfl⟩)⟩

/-- Claim C3: a sensitive frame whose stored checksum differs from the
computed one is dropped (`continue`): the step consumes exactly that
frame, broadcasts nothing, and the whole session run on the remaining
stream is unchanged, so the admission slot stays occupied until the
session really ends; header-read short reads, validation errors and
payload short reads, by contrast, terminate the session. -/
theorem c3_sensitive_mismatch_recoverable
    (b0 b1 b2 b3 b4 b5 b6 b7 : Nat) (payload rest : List Nat)
    (hv : validate_header [b0, b1, b2, b3, b4, b5, b6, b7] = .ok (payload.length, true))
    (hcs : verify_checksum [b0, b1, b2, b3, b4, b5, b6, b7] payload ≠ be16 b4 b5)
    (input2 hdr2 r2 : List Nat) (e2 : String)
    (h2a : readExact CTMP_HEADER_LEN input2 = some (hdr2, r2))
    (h2b : validate_header hdr2 = .error e2)
    (input3 : List Nat) (h3 : input3.length < CTMP_HEADER_LEN)
    (input4 hdr4 r4 : List Nat) (n4 : Nat) (s4 : Bool)
    (h4a : readExact CTMP_HEADER_LEN input4 = some (hdr4, r4))
    (h4b : validate_header hdr4 = .ok (n4, s4)) (h4c : r4.length < n4) :
    sessionStep ([b0, b1, b2, b3, b4, b5, b6, b7] ++ (payload ++ rest)) = .dropped rest
    ∧ handle_transmitter_run false ([b0, b1, b2, b3, b4, b5, b6, b7] ++ (payload ++ rest))
        = handle_transmitter_run false rest
    ∧ sessionStep input2 = .terminated
    ∧ sessionStep input3 = .terminated
    ∧ sessionStep input4 = .terminated := by
  have hldr : ([b0, b1, b2, b3, b4, b5, b6, b7] : List Nat).length = CTMP_HEADER_LEN := rfl
  have hr1 : readExact CTMP_HEADER_LEN ([b0, b1, b2, b3, b4, b5, b6, b7] ++ (payload ++ rest))
      = some ([b0, b1, b2, b3, b4, b5, b6, b7], payload ++ rest) := by
    unfold readExact
    rw [if_pos, List.take_left' hldr, List.drop_left' hldr]
    rw [List.length_append, hldr]
    omega
  have hr2 : readExact payload.length (payload ++ rest) = some (payload, rest) := by
    unfold readExact
    rw [if_pos, List.take_left' rfl, List.drop_left' rfl]
    rw [List.length_append]
    omega
  have hstepA : sessionStep ([b0, b1, b2, b3, b4, b5, b6, b7] ++ (payload ++ rest))
      = .dropped rest := by
    rw [sessionStep_eq_frame hr1 hv hr2, if_pos]
    exact ⟨rfl, hcs⟩
  refine ⟨hstepA, ?_, sessionStep_eq_invalid h2a h2b, ?_, ?_⟩
  · rw [handle_transmitter_run, sessionLoopF, hstepA]
    have hlt : rest.length < ([b0, b1, b2, b3, b4, b5, b6, b7] ++ (payload ++ rest)).length := by
      rw [List.length_append, List.length_append, hldr]
      have h8 : CTMP_HEADER_LEN = 8 := rfl
      omega
    exact sessionLoopF_congr false rest.length _ _ rest (Nat.le_refl _) hlt (Nat.lt_succ_self _)
  · exact sessionStep_eq_noHeader (by unfold readExact; rw [if_neg (by omega)])
  · exact sessionStep_eq_shortPayload h4a h4b (by unfold readExact; rw [if_neg (by omega)])

/-- Witness for C3: a sensitive frame with stored checksum 0 (computed
9713) is dropped and the session goes on; a bad-magic header, a 1-byte
stream and a truncated payload each terminate. -/
theorem c3_sensitive_mismatch_recoverable_witness :
    validate_header [0xCC, 0x40, 0x00, 0x01, 0x00, 0x00, 0x00, 0x00]
        = .ok (([0x41] : List Nat).length, true)
    ∧ verify_checksum [0xCC, 0x40, 0x00, 0x01, 0x00, 0x00, 0x00, 0x00] [0x41] ≠ be16 0 0
    ∧ readExact CTMP_HEADER_LEN [0xAB, 0, 0, 0, 0, 0, 0, 0]
        = some ([0xAB, 0, 0, 0, 0, 0, 0, 0], [])
    ∧ validate_header [0xAB, 0, 0, 0, 0, 0, 0, 0] = .error ("Invalid magic byte")
    ∧ ([0xCC] : List Nat).length < CTMP_HEADER_LEN
    ∧ readExact CTMP_HEADER_LEN [0xCC, 0x40, 0x00, 0x02, 0, 0, 0, 0, 0x41]
        = some ([0xCC, 0x40, 0x00, 0x02, 0, 0, 0, 0], [0x41])
    ∧ validate_header [0xCC, 0x40, 0x00, 0x02, 0, 0, 0, 0] = .ok (2, true)
    ∧ ([0x41] : List Nat).length < 2
    ∧ (sessionStep ([0xCC, 0x40, 0x00, 0x01, 0x00, 0x00, 0x00, 0x00] ++ ([0x41] ++ []))
        = .dropped []
      ∧ handle_transmitter_run false
            ([0xCC, 0x40, 0x00, 0x01, 0x00, 0x00, 0x00, 0x00] ++ ([0x41] ++ []))
          = handle_transmitter_run false []
      ∧ sessionStep [0xAB, 0, 0, 0, 0, 0, 0, 0] = .terminated
      ∧ sessionStep [0xCC] = .terminated
      ∧ sessionStep [0xCC, 0x40, 0x00, 0x02, 0, 0, 0, 0, 0x41] = .terminated) :=
  ⟨rfl, by decide, rfl, rfl, by decide, rfl, rfl, by decide,
    c3_sensitive_mismatch_recoverable 0xCC 0x40 0x00 0x01 0x00 0x00 0x00 0x00 [0x41] []
      rfl (by decide) [0xAB, 0, 0, 0, 0, 0, 0, 0] [0xAB, 0, 0, 0, 0, 0, 0, 0] []
      "Invalid magic byte" rfl rfl [0xCC] (by decide)
      [0xCC, 0x40, 0x00, 0x02, 0, 0, 0, 0, 0x41] [0xCC, 0x40, 0x00, 0x02, 0, 0, 0, 0] [0x41]
      2 true rfl rfl (by decide)⟩

/-- Claim C7: for a sensitive frame whose checksum field (bytes 4-5) is
set to the value computed by `verify_checksum` over the frame, checksum
verification passes (computed equals stored); and flipping any single
bit of any header byte other than bytes 4-5, or of any payload byte,
changes the computed checksum away from the stored one, so verification
fails. -/
theorem c7_checksum_roundtrip
    (b0 b1 b2 b3 b4 b5 b6 b7 : Nat) (payload : List Nat) (c j t : Nat)
    (hc : c = verify_checksum [b0, b1, b2, b3, b4, b5, b6, b7] payload)
    (hb0 : b0 < 256) (hb1 : b1 < 256) (hb2 : b2 < 256) (hb3 : b3 < 256)
    (hb6 : b6 < 256) (hb7 : b7 < 256)
    (hP : ∀ b ∈ payload, b < 256)
    (hsens : Nat.testBit b1 6 = true) (ht : t < 8) :
    verify_checksum [b0, b1, b2, b3, c / 256, c % 256, b6, b7] payload
        = be16 (c / 256) (c % 256)
    ∧ (j < 8 → j ≠ 4 → j ≠ 5 →
        verify_checksum
            (([b0, b1, b2, b3, c / 256, c % 256, b6, b7] : List Nat).set j
              (([b0, b1, b2, b3, c / 256, c % 256, b6, b7] : List Nat).getD j 0 ^^^ 2 ^ t))
            payload
          ≠ be16 (c / 256) (c % 256))
    ∧ (j < payload.length →
        verify_checksum [b0, b1, b2, b3, c / 256, c % 256, b6, b7]
            (payload.set j (payload.getD j 0 ^^^ 2 ^ t))
          ≠ be16 (c / 256) (c % 256)) := by
  have hcle : c ≤ 65535 := by
    rw [hc]
    unfold verify_checksum
    omega
  have hbe : be16 (c / 256) (c % 256) = c := by
    unfold be16
    omega
  have hplace : setChecksumPlaceholder [b0, b1, b2, b3, c / 256, c % 256, b6, b7]
      = setChecksumPlaceholder [b0, b1, b2, b3, b4, b5, b6, b7] := rfl
  have hpart1 : verify_checksum [b0, b1, b2, b3, c / 256, c % 256, b6, b7] payload
      = be16 (c / 256) (c % 256) := by
    have hsame : verify_checksum [b0, b1, b2, b3, c / 256, c % 256, b6, b7] payload
        = verify_checksum [b0, b1, b2, b3, b4, b5, b6, b7] payload := by
      unfold verify_checksum
      rw [hplace]
    rw [hsame, hbe, hc]
  have hpow : (2 : Nat) ^ (t + 8) = 256 * 2 ^ t := by
    rw [pow_add]
    norm_num
    ring
  refine ⟨hpart1, ?_, ?_⟩
  · intro hj hj4 hj5
    have hbyte : ([b0, b1, b2, b3, c / 256, c % 256, b6, b7] : List Nat).getD j 0 < 256 := by
      interval_cases j <;> simp [List.getD_cons_zero, List.getD_cons_succ] <;> omega
    have hsetp : setChecksumPlaceholder
          (([b0, b1, b2, b3, c / 256, c % 256, b6, b7] : List Nat).set j
            (([b0, b1, b2, b3, c / 256, c % 256, b6, b7] : List Nat).getD j 0 ^^^ 2 ^ t))
        = (setChecksumPlaceholder [b0, b1, b2, b3, c / 256, c % 256, b6, b7]).set j
            (([b0, b1, b2, b3, c / 256, c % 256, b6, b7] : List Nat).getD j 0 ^^^ 2 ^ t) := by
      unfold setChecksumPlaceholder
      rw [List.set_comm _ _ _ hj4, List.set_comm _ _ _ hj5]
    have hgd : (setChecksumPlaceholder
          [b0, b1, b2, b3, c / 256, c % 256, b6, b7]).getD j 0
        = ([b0, b1, b2, b3, c / 256, c % 256, b6, b7] : List Nat).getD j 0 := by
      interval_cases j <;>
        first
        | omega
        | simp [setChecksumPlaceholder, List.getD_cons_zero, List.getD_cons_succ]
    have hws := wordSum_set
      (setChecksumPlaceholder [b0, b1, b2, b3, c / 256, c % 256, b6, b7]) j
      (([b0, b1, b2, b3, c / 256, c % 256, b6, b7] : List Nat).getD j 0 ^^^ 2 ^ t)
      (by rw [show (setChecksumPlaceholder
            [b0, b1, b2, b3, c / 256, c % 256, b6, b7]).length = 8 from rfl]; omega)
    rw [hgd] at hws
    have hflip := xor_flip_byte _ hbyte t ht
    rw [← hpart1]
    by_cases hpar : j % 2 = 0
    · have hw : wgt j = 256 := by simp [wgt, hpar]
      rw [hw] at hws
      refine checksum_ne_of_delta _ _ (2 ^ (t + 8)) ⟨t + 8, by omega, rfl⟩ ?_
      show wordSum (setChecksumPlaceholder _) + wordSum payload
          = wordSum (setChecksumPlaceholder _) + wordSum payload + 2 ^ (t + 8)
        ∨ wordSum (setChecksumPlaceholder _) + wordSum payload
          = wordSum (setChecksumPlaceholder _) + wordSum payload + 2 ^ (t + 8)
      rw [hsetp, hpow]
      rcases hflip.2 with hup | hdown
      · left
        omega
      · right
        omega
    · have hw : wgt j = 1 := by simp [wgt, hpar]
      rw [hw] at hws
      refine checksum_ne_of_delta _ _ (2 ^ t) ⟨t, by omega, rfl⟩ ?_
      show wordSum (setChecksumPlaceholder _) + wordSum payload
          = wordSum (setChecksumPlaceholder _) + wordSum payload + 2 ^ t
        ∨ wordSum (setChecksumPlaceholder _) + wordSum payload
          = wordSum (setChecksumPlaceholder _) + wordSum payload + 2 ^ t
      rw [hsetp]
      rcases hflip.2 with hup | hdown
      · left
        omega
      · right
        omega
  · intro hjp
    have hmem : payload.getD j 0 ∈ payload := by
      rw [List.getD_eq_getElem payload 0 hjp]
      exact List.getElem_mem hjp
    have hbyte : payload.getD j 0 < 256 := hP _ hmem
    have hws := wordSum_set payload j (payload.getD j 0 ^^^ 2 ^ t) hjp
    have hflip := xor_flip_byte _ hbyte t ht
    rw [← hpart1]
    by_cases hpar : j % 2 = 0
    · have hw : wgt j = 256 := by simp [wgt, hpar]
      rw [hw] at hws
      refine checksum_ne_of_delta _ _ (2 ^ (t + 8)) ⟨t + 8, by omega, rfl⟩ ?_
      rw [hpow]
      rcases hflip.2 with hup | hdown
      · left
        omega
      · right
        omega
    · have hw : wgt j = 1 := by simp [wgt, hpar]
      rw [hw] at hws
      refine checksum_ne_of_delta _ _ (2 ^ t) ⟨t, by omega, rfl⟩ ?_
      rcases hflip.2 with hup | hdown
      · left
        omega
      · right
        omega

/-- Witness for C7: the sensitive frame `CC 40 00 01 | csum | 00 00` with
payload `41` and computed checksum 9713, flipping bit 0 of byte 0 of the
header or of byte 0 of the payload. -/
theorem c7_checksum_roundtrip_witness :
    (9713 : Nat) = verify_checksum [0xCC, 0x40, 0, 1, 0, 0, 0, 0] [0x41]
    ∧ (0xCC : Nat) < 256 ∧ (0x40 : Nat) < 256 ∧ (0 : Nat) < 256 ∧ (1 : Nat) < 256
    ∧ (0 : Nat) < 256 ∧ (0 : Nat) < 256
    ∧ (∀ b ∈ ([0x41] : List Nat), b < 256)
    ∧ Nat.testBit 0x40 6 = true ∧ (0 : Nat) < 8
    ∧ (verify_checksum [0xCC, 0x40, 0, 1, 9713 / 256, 9713 % 256, 0, 0] [0x41]
          = be16 (9713 / 256) (9713 % 256)
      ∧ ((0 : Nat) < 8 → (0 : Nat) ≠ 4 → (0 : Nat) ≠ 5 →
          verify_checksum
              (([0xCC, 0x40, 0, 1, 9713 / 256, 9713 % 256, 0, 0] : List Nat).set 0
                (([0xCC, 0x40, 0, 1, 9713 / 256, 9713 % 256, 0, 0] : List Nat).getD 0 0
                  ^^^ 2 ^ 0))
              [0x41]
            ≠ be16 (9713 / 256) (9713 % 256))
      ∧ ((0 : Nat) < ([0x41] : List Nat).length →
          verify_checksum [0xCC, 0x40, 0, 1, 9713 / 256, 9713 % 256, 0, 0]
              (([0x41] : List Nat).set 0 (([0x41] : List Nat).getD 0 0 ^^^ 2 ^ 0))
            ≠ be16 (9713 / 256) (9713 % 256))) :=
  ⟨by decide, by decide, by decide, by decide, by decide, by decide, by decide, by decide,
    by decide, by decide,
    c7_checksum_roundtrip 0xCC 0x40 0 1 0 0 0 0 [0x41] 9713 0 0 (by decide) (by decide)
      (by decide) (by decide) (by decide) (by decide) (by decide) (by decide) (by decide)
      (by decide)⟩

/-- Claim C10: the inline checksum of main.rs (while-loop carry fold) is
claimed to equal lib.rs `verify_checksum` (single fold).  They differ:
at this sensitive header and payload the word sum is 0x3FFFE, the single
fold gives 0x10001 truncated to 0x0001 (result 0xFFFE) while the while
loop reaches 0x0002 (result 0xFFFD). -/
theorem c10_inline_checksum_differs :
    verify_checksum [0xCC, 0x40, 0x00, 0x06, 0, 0, 0, 0] [0xFF, 0xFF, 0xFF, 0xFF, 0x66, 0xEE]
        = 0xFFFE
    ∧ handle_source_connection_checksum [0xCC, 0x40, 0x00, 0x06, 0, 0, 0, 0]
        [0xFF, 0xFF, 0xFF, 0xFF, 0x66, 0xEE] = 0xFFFD := by
  exact ⟨rfl, rfl⟩

end Wirestorm
